import Mathlib

/-!
Verification of the osmMuniSvg core pipeline (src/main.py).

The geometric pipeline of `generate_svg` is embedded shallowly:
coordinates are rationals, shapely polygons become explicit coordinate
lists, and the external geometry library operations that the source only
calls at their interface (representative points, containment tests,
set intersection, centroids) are carried as function parameters or as
precomputed data on the feature records.
-/

set_option autoImplicit false

namespace OsmMuniSvg

/-! ### Two-decimal number formatting (the `:.2f` format used in the source) -/

/-- The decimal digit character for `d < 10`. -/
def digitChar (d : Nat) : Char := Char.ofNat (48 + d)

/-- Decimal digit characters of a natural number, most significant first.
The first argument is fuel; `n + 1` steps always suffice. -/
def natToCharsAux : Nat → Nat → List Char
  | 0, _ => []
  | fuel + 1, n =>
      if n < 10 then [digitChar n]
      else natToCharsAux fuel (n / 10) ++ [digitChar (n % 10)]

/-- Decimal digit characters of a natural number. -/
def natToChars (n : Nat) : List Char := natToCharsAux (n + 1) n

/-- Round a rational to the nearest integer, ties going to the even
integer, mirroring the rounding of the fixed-precision float formatting
in the source. -/
def roundHalfEven (x : ℚ) : ℤ :=
  let f : ℤ := Int.floor x
  let r : ℚ := x - (f : ℚ)
  if r < 1 / 2 then f
  else if 1 / 2 < r then f + 1
  else if f % 2 = 0 then f else f + 1

/-- The digits of a two-decimal rendering: integer part, decimal
point, two fractional digits. -/
def fmt2core (n : ℤ) : String :=
  String.mk (natToChars (n.natAbs / 100)) ++ "." ++
    String.mk [digitChar (n.natAbs / 10 % 10), digitChar (n.natAbs % 10)]

/-- Format a rational with exactly two decimal places, as the source's
two-decimal float formatting does for every emitted coordinate: round
the value scaled by 100, render its digits, and prepend the sign of
the value. -/
def fmt2 (q : ℚ) : String :=
  if q < 0 then "-" ++ fmt2core (roundHalfEven (q * 100))
  else fmt2core (roundHalfEven (q * 100))

/-! ### Canvas and coordinate normalizer (lines 70-85 of src/main.py) -/

/-- Bounding box `(minx, miny, maxx, maxy)` as produced by `total_bounds`. -/
structure BBox where
  minx : ℚ
  miny : ℚ
  maxx : ℚ
  maxy : ℚ
deriving DecidableEq

/-- `svg_width = 1000` (line 73). -/
def svgWidth : ℚ := 1000

/-- `svg_height = svg_width * ((maxy - miny) / (maxx - minx))` (line 74). -/
def svgHeight (b : BBox) : ℚ := svgWidth * ((b.maxy - b.miny) / (b.maxx - b.minx))

/-- `px = (x - minx) / (maxx - minx) * svg_width` (line 82). -/
def projectX (b : BBox) (x : ℚ) : ℚ := (x - b.minx) / (b.maxx - b.minx) * svgWidth

/-- `py = svg_height - (y - miny) / (maxy - miny) * svg_height` (line 83). -/
def projectY (b : BBox) (y : ℚ) : ℚ :=
  svgHeight b - (y - b.miny) / (b.maxy - b.miny) * svgHeight b

/-! ### Path serializer (`polygon_to_svg_path`, lines 76-98) -/

/-- `" ".join(path)` from the source: concatenation with single spaces. -/
def joinSpace : List String → String
  | [] => ""
  | [s] => s
  | s :: rest => s ++ " " ++ joinSpace rest

/-- One `"{cmd} {px:.2f} {py:.2f}"` segment of the path (line 85). -/
def segString (b : BBox) (cmd : String) (x y : ℚ) : String :=
  cmd ++ " " ++ fmt2 (projectX b x) ++ " " ++ fmt2 (projectY b y)

/-- The enumerated loop body of `coords_to_path` (lines 81-85): the
command is `"M"` at index `0` and `"L"` afterwards. -/
def segsFrom (b : BBox) : Nat → List (ℚ × ℚ) → List String
  | _, [] => []
  | i, (x, y) :: rest =>
      segString b (if i = 0 then "M" else "L") x y :: segsFrom b (i + 1) rest

/-- `coords_to_path` (lines 78-87): segments plus a final `"Z"`, joined
by single spaces. -/
def coordsToPath (b : BBox) (coords : List (ℚ × ℚ)) : String :=
  joinSpace (segsFrom b 0 coords ++ ["Z"])

/-- A shapely polygon: exterior ring plus interior rings, each a
coordinate sequence. -/
structure Polygon where
  exterior : List (ℚ × ℚ)
  interiors : List (List (ℚ × ℚ))
deriving DecidableEq

/-- A shapely polygon is empty iff its exterior coordinate sequence is. -/
def Polygon.polyEmpty (p : Polygon) : Bool := p.exterior.isEmpty

/-- A geometry handed to `polygon_to_svg_path`: a polygon or a
multi-polygon. -/
inductive PGeom where
  | poly (p : Polygon)
  | multi (ps : List Polygon)
deriving DecidableEq

/-- `is_empty` (line 89): an empty polygon or a multi-polygon with no
parts. -/
def PGeom.isEmptyG : PGeom → Bool
  | .poly p => p.polyEmpty
  | .multi ps => ps.isEmpty

/-- The `Polygon` branch of `polygon_to_svg_path` (lines 89-95):
empty check, then exterior subpath followed by one subpath per
interior ring, accumulated with `d += " " + ...`. -/
def polyPath (b : BBox) (p : Polygon) : String :=
  if p.polyEmpty then ""
  else joinSpace (coordsToPath b p.exterior :: p.interiors.map (coordsToPath b))

/-- `polygon_to_svg_path` (lines 76-98): dispatch on geometry type; a
multi-polygon joins the recursive serializations of its parts with
spaces (line 97), each part being a polygon. -/
def polygonToSvgPath (b : BBox) : PGeom → String
  | .poly p => polyPath b p
  | .multi ps => if ps.isEmpty then "" else joinSpace (ps.map (polyPath b))

/-! ### Spatial filter (lines 31-40): type filter and two identical
representative-point filters.  The geometry library's
`representative_point` and `within` are external; they enter as
function parameters, exactly at the interface the source calls. -/

/-- Geometry types as reported by geopandas `geometry.type`. -/
inductive GType where
  | point
  | lineString
  | polygon
  | multiPolygon
  | other
deriving DecidableEq

/-- One raw candidate row of `wards_gdf`: its reported geometry type,
its underlying geometry data of abstract type `α`, and the name and
index columns the assembly loop later reads. -/
structure Candidate (α : Type) where
  gtype : GType
  shape : α
  nameJp : String
  nameEn : Option String
  idxStr : String
deriving DecidableEq

/-- Line 32: keep only rows whose type is in `['Polygon', 'MultiPolygon']`. -/
def typeFilter {α : Type} (l : List (Candidate α)) : List (Candidate α) :=
  l.filter (fun c => c.gtype = GType.polygon ∨ c.gtype = GType.multiPolygon)

/-- Lines 35 and 40: keep only rows whose representative point lies
within the city geometry; `withinCity pt` stands for
`pt.within(city_geom)` and `repPoint` for `.representative_point()`. -/
def spatialFilter {α π : Type} (repPoint : α → π) (withinCity : π → Bool)
    (l : List (Candidate α)) : List (Candidate α) :=
  l.filter (fun c => withinCity (repPoint c.shape))

/-- The whole filter chain of lines 32, 35 and 40: the type filter
followed by the representative-point filter applied twice. -/
def wardFilter {α π : Type} (repPoint : α → π) (withinCity : π → Bool)
    (l : List (Candidate α)) : List (Candidate α) :=
  spatialFilter repPoint withinCity (spatialFilter repPoint withinCity (typeFilter l))

/-! ### Land mask clipper (lines 56-66): `try` to intersect every
geometry with the land union, `except` pass geometries through.  The
try/except outcome is an `Option` mask: `none` when acquisition or
clipping fails, `some m` when it succeeds. -/

/-- Lines 57-66: on success replace each row's geometry column by its
intersection with the land mask, leaving the other columns alone; on
failure leave the collection untouched.  `inter g m` stands for the
external `g.intersection(m)`. -/
def clipStage {α μ : Type} (inter : α → μ → α) (mask : Option μ)
    (rows : List (Candidate α)) : List (Candidate α) :=
  match mask with
  | none => rows
  | some m => rows.map (fun r => { r with shape := inter r.shape m })

/-! ### Identifier sanitizer (lines 123-127) -/

/-- Transliteration of one character to ASCII.  Modelled from the spec:
the external `unidecode` library is outside src/; §4.5 specifies it as
"transliterate to a Latin-only approximation (diacritics removed,
e.g., Kōhoku → Kohoku)".  ASCII passes through; the Latin macron and
common accented vowels lose their diacritic; anything else is dropped. -/
def unidecodeChar (c : Char) : String :=
  if c.toNat < 128 then String.mk [c]
  else if c = 'ā' ∨ c = 'á' ∨ c = 'à' ∨ c = 'â' then "a"
  else if c = 'ē' ∨ c = 'é' ∨ c = 'è' ∨ c = 'ê' then "e"
  else if c = 'ī' ∨ c = 'í' ∨ c = 'ì' ∨ c = 'î' then "i"
  else if c = 'ō' ∨ c = 'ó' ∨ c = 'ò' ∨ c = 'ô' then "o"
  else if c = 'ū' ∨ c = 'ú' ∨ c = 'ù' ∨ c = 'û' then "u"
  else ""

/-- `unidecode(str(name_en))` (line 123), character by character. -/
def unidecodeStr (s : String) : String :=
  String.join (s.data.map unidecodeChar)

/-- A regex word character (`\w` over the ASCII output of the
transliteration): letter, digit or underscore. -/
def isWordChar (c : Char) : Bool := c.isAlpha || c.isDigit || c = '_'

/-- Case-insensitive character comparison, for the `(?i)` regex flag. -/
def lowerEq (c d : Char) : Bool := c.toLower = d.toLower

/-- `re.sub(r'(?i)\bward\b', '', s)` (line 124) as a left-to-right
scan: `prev` records whether the character before the current position
is a word character, so that both `\b` boundaries can be checked. -/
def removeWardAux : Bool → List Char → List Char
  | _, [] => []
  | prev, c1 :: c2 :: c3 :: c4 :: after =>
      if !prev && lowerEq c1 'w' && lowerEq c2 'a' && lowerEq c3 'r' &&
         lowerEq c4 'd' &&
         (match after with
          | [] => true
          | d :: _ => !isWordChar d)
      then removeWardAux true after
      else c1 :: removeWardAux (isWordChar c1) (c2 :: c3 :: c4 :: after)
  | _, c1 :: rest => c1 :: removeWardAux (isWordChar c1) rest

/-- The standalone-word-"ward" removal on strings. -/
def removeWard (s : String) : String := String.mk (removeWardAux false s.data)

/-- `re.sub(r'[^a-zA-Z0-9]', '', s)` (line 125): keep only ASCII
letters and digits. -/
def keepAlnum (s : String) : String := String.mk (s.data.filter Char.isAlphanum)

/-- Lines 123-127: the full identifier sanitizer, with the positional
fallback `f"ward_{idx}"` when everything is stripped away; `idxStr`
is the rendering of the feature's index. -/
def cleanId (nameEn : String) (idxStr : String) : String :=
  if keepAlnum (removeWard (unidecodeStr nameEn)) = "" then "ward_" ++ idxStr
  else keepAlnum (removeWard (unidecodeStr nameEn))

/-! ### Document assembler (lines 100-141) -/

/-- One surviving feature row as the assembly loop reads it: its
rendered geometry, its names, its index rendering, and its centroid as
computed by the external geometry library (line 132). -/
structure Feature where
  geom : PGeom
  nameJp : String
  nameEn : Option String
  idxStr : String
  centroid : ℚ × ℚ
deriving DecidableEq

/-- Lines 118-121: `name:en` falls back to the local name when absent
or empty. -/
def resolveNameEn (f : Feature) : String :=
  match f.nameEn with
  | some s => if s = "" then f.nameJp else s
  | none => f.nameJp

/-- The `<path .../>` element of line 129. -/
def shapeElem (b : BBox) (f : Feature) : String :=
  "    <path id=\"" ++ cleanId (resolveNameEn f) f.idxStr ++
    "\" class=\"ward\" d=\"" ++ polygonToSvgPath b f.geom ++ "\" />"

/-- The `<text ...>` element of lines 133-135; `cx`, `cy` use the same
formulas as the path projection. -/
def labelElem (b : BBox) (f : Feature) : String :=
  "    <text x=\"" ++ fmt2 (projectX b f.centroid.1) ++ "\" y=\"" ++
    fmt2 (projectY b f.centroid.2) ++ "\" class=\"label\">" ++ f.nameJp ++ "</text>"

/-- The fixed document header of lines 101-108: root element with the
canvas viewBox, style block, and the opening of the shapes group. -/
def svgHeader (b : BBox) : List String :=
  ["<svg xmlns=\"http://www.w3.org/2000/svg\" viewBox=\"0 0 " ++
     fmt2 svgWidth ++ " " ++ fmt2 (svgHeight b) ++ "\">",
   "<style>\n            .ward \x7b fill: #ffffff; stroke: #000000; stroke-width: 2px; \x7d\n            .label \x7b font-family: sans-serif; font-size: 14px; text-anchor: middle; fill: #000000; pointer-events: none; \x7d\n        </style>",
   "<g id=\"wards\">"]

/-- The feature loop of lines 112-135: features with empty geometry are
skipped (`continue`, line 115); the others append one shape element and
one label element, in iteration order. -/
def assembleLoop (b : BBox) : List Feature → List String × List String
  | [] => ([], [])
  | f :: rest =>
      if f.geom.isEmptyG then assembleLoop b rest
      else
        let p := assembleLoop b rest
        (shapeElem b f :: p.1, labelElem b f :: p.2)

/-- Lines 101-141: the complete ordered element list of the document —
header, shape elements, close of the shapes group, labels group,
closing tags. -/
def svgDocument (b : BBox) (fs : List Feature) : List String :=
  let p := assembleLoop b fs
  svgHeader b ++ p.1 ++ ["</g>"] ++ ("<g id=\"labels\">" :: p.2) ++ ["</g>", "</svg>"]

/-! ### Bounding box over a collection (line 70, `total_bounds`) -/

/-- All coordinates of a geometry: exterior and interior rings of every
part. -/
def geomCoords : PGeom → List (ℚ × ℚ)
  | .poly p => p.exterior ++ p.interiors.flatten
  | .multi ps => (ps.map (fun p => p.exterior ++ p.interiors.flatten)).flatten

/-- `total_bounds` of a feature collection: componentwise min/max over
every coordinate.  On an empty coordinate set the source's numpy call
yields NaN bounds; NaN has no rational counterpart, so that corner
returns the zero box here and is never relied on in a theorem. -/
def totalBounds (fs : List Feature) : BBox :=
  match (fs.map (fun f => geomCoords f.geom)).flatten with
  | [] => ⟨0, 0, 0, 0⟩
  | c :: cs =>
      cs.foldl
        (fun b q =>
          ⟨min b.minx q.1, min b.miny q.2, max b.maxx q.1, max b.maxy q.2⟩)
        ⟨c.1, c.2, c.1, c.2⟩

/-! ### The core pipeline end to end -/

/-- The external geometry-library operations `generate_svg` calls, at
their interface: representative point, containment in the city
boundary, set intersection, the planar-projected coordinates of a
geometry, and its centroid. -/
structure GeoOps (α π μ : Type) where
  repPoint : α → π
  withinCity : π → Bool
  inter : α → μ → α
  toPGeom : α → PGeom
  centroidOf : α → ℚ × ℚ

/-- The feature record the assembly loop reads off one surviving row. -/
def rowFeature {α π μ : Type} (ops : GeoOps α π μ) (r : Candidate α) : Feature :=
  ⟨ops.toPGeom r.shape, r.nameJp, r.nameEn, r.idxStr, ops.centroidOf r.shape⟩

/-- The core pipeline of `generate_svg` after acquisition (lines
31-141): filter, clip, compute the bounding box over the result, and
assemble the ordered document element list. -/
def corePipeline {α π μ : Type} (ops : GeoOps α π μ) (rows : List (Candidate α))
    (mask : Option μ) : List String :=
  let kept := wardFilter ops.repPoint ops.withinCity rows
  let clipped := clipStage ops.inter mask kept
  let fs := clipped.map (rowFeature ops)
  svgDocument (totalBounds fs) fs

/-- A path string is one closed subpath when it starts with the move
command, ends with the close command, and contains exactly one of
each. -/
def closedSubpath (s : String) : Prop :=
  s.data.head? = some 'M' ∧ s.data.getLast? = some 'Z' ∧
    s.data.count 'M' = 1 ∧ s.data.count 'Z' = 1

/-! ## Character-level facts about the serialized path strings -/

/-- `String.data` distributes over append. -/
theorem data_append (s t : String) : (s ++ t).data = s.data ++ t.data := rfl

theorem digitChar_toNat {d : Nat} (h : d < 10) :
    48 ≤ (digitChar d).toNat ∧ (digitChar d).toNat ≤ 57 := by
  interval_cases d <;> decide

theorem mem_natToCharsAux {fuel n : Nat} {c : Char} (h : c ∈ natToCharsAux fuel n) :
    48 ≤ c.toNat ∧ c.toNat ≤ 57 := by
  induction fuel generalizing n with
  | zero => simp [natToCharsAux] at h
  | succ fuel ih =>
      unfold natToCharsAux at h
      by_cases hn : n < 10
      · rw [if_pos hn] at h
        simp only [List.mem_singleton] at h
        subst h
        exact digitChar_toNat hn
      · rw [if_neg hn, List.mem_append] at h
        cases h with
        | inl h => exact ih h
        | inr h =>
            simp only [List.mem_singleton] at h
            subst h
            exact digitChar_toNat (Nat.mod_lt _ (by norm_num))

theorem fmt2_mem {q : ℚ} {c : Char} (h : c ∈ (fmt2 q).data) :
    45 ≤ c.toNat ∧ c.toNat ≤ 57 := by
  have hcore : ∀ n : ℤ, c ∈ (fmt2core n).data → 45 ≤ c.toNat ∧ c.toNat ≤ 57 := by
    intro n hn
    unfold fmt2core at hn
    rw [data_append, data_append] at hn
    rw [List.mem_append, List.mem_append] at hn
    rcases hn with (hn | hn) | hn
    · have h2 := mem_natToCharsAux (by simpa using hn)
      omega
    · simp only [List.mem_singleton] at hn
      subst hn
      decide
    · simp only [List.mem_cons, List.mem_singleton] at hn
      rcases hn with hn | hn | hn
      · subst hn
        have h2 := digitChar_toNat (d := n.natAbs / 10 % 10)
          (Nat.mod_lt _ (by norm_num))
        omega
      · subst hn
        have h2 := digitChar_toNat (d := n.natAbs % 10)
          (Nat.mod_lt _ (by norm_num))
        omega
      · cases hn
  unfold fmt2 at h
  by_cases hq : q < 0
  · rw [if_pos hq, data_append, List.mem_append] at h
    cases h with
    | inl h =>
        simp only [List.mem_singleton] at h
        subst h
        decide
    | inr h => exact hcore _ h
  · rw [if_neg hq] at h
    exact hcore _ h

theorem fmt2_count_eq_zero {q : ℚ} {c : Char} (hc : 57 < c.toNat) :
    (fmt2 q).data.count c = 0 :=
  List.count_eq_zero.mpr fun h => by
    have h2 := fmt2_mem h
    omega

theorem segString_count {b : BBox} {x y : ℚ} {c : Char} (hc : 57 < c.toNat)
    (cmd : String) :
    (segString b cmd x y).data.count c = cmd.data.count c := by
  have hsp : (" ".data).count c = 0 := by
    refine List.count_eq_zero.mpr fun h => ?_
    have he : c = ' ' := by simpa using h
    rw [he] at hc
    exact absurd hc (by decide)
  unfold segString
  rw [data_append, data_append, data_append, data_append]
  rw [List.count_append, List.count_append, List.count_append, List.count_append]
  rw [fmt2_count_eq_zero hc, fmt2_count_eq_zero hc, hsp]
  omega

theorem joinSpace_two (s t : String) (rest : List String) :
    joinSpace (s :: t :: rest) = s ++ " " ++ joinSpace (t :: rest) := rfl

theorem joinSpace_count {c : Char} (hc : 57 < c.toNat) (l : List String) :
    (joinSpace l).data.count c = (l.map fun s => s.data.count c).sum := by
  have hsp : (" ".data).count c = 0 := by
    refine List.count_eq_zero.mpr fun h => ?_
    have he : c = ' ' := by simpa using h
    rw [he] at hc
    exact absurd hc (by decide)
  induction l with
  | nil => simp [joinSpace]
  | cons s rest ih =>
      cases rest with
      | nil => simp [joinSpace]
      | cons t r =>
          rw [joinSpace_two, data_append, data_append, List.count_append,
            List.count_append, hsp, ih]
          simp only [List.map_cons, List.sum_cons]
          omega

theorem joinSpace_head {s : String} {rest : List String} (hrest : rest ≠ [])
    {c : Char} (hhead : s.data.head? = some c) :
    (joinSpace (s :: rest)).data.head? = some c := by
  obtain ⟨t, r, rfl⟩ := List.exists_cons_of_ne_nil hrest
  rw [joinSpace_two, data_append, data_append]
  cases hs : s.data with
  | nil => rw [hs] at hhead; cases hhead
  | cons a u =>
      rw [hs] at hhead
      simp only [List.head?_cons, Option.some.injEq] at hhead
      subst hhead
      rfl

theorem joinSpace_getLastZ (l : List String) :
    (joinSpace (l ++ ["Z"])).data.getLast? = some 'Z' := by
  induction l with
  | nil => decide
  | cons s t ih =>
      have hne : t ++ ["Z"] ≠ [] := by simp
      obtain ⟨a, r, ha⟩ := List.exists_cons_of_ne_nil hne
      rw [List.cons_append, ha, joinSpace_two, ← ha, data_append]
      have hnn : (joinSpace (t ++ ["Z"])).data ≠ [] := by
        intro h0
        rw [h0] at ih
        cases ih
      rw [List.getLast?_append_of_ne_nil _ hnn]
      exact ih

theorem segsFrom_cons (b : BBox) (i : Nat) (x y : ℚ) (rest : List (ℚ × ℚ)) :
    segsFrom b i ((x, y) :: rest) =
      segString b (if i = 0 then "M" else "L") x y :: segsFrom b (i + 1) rest := rfl

theorem segsFrom_pos_count {b : BBox} {c : Char} (hc : 57 < c.toNat) (hcL : c ≠ 'L')
    (coords : List (ℚ × ℚ)) :
    ∀ i, i ≠ 0 → ((segsFrom b i coords).map fun s => s.data.count c).sum = 0 := by
  have hL : ("L".data).count c = 0 := by
    refine List.count_eq_zero.mpr fun h => ?_
    exact hcL (by simpa using h)
  induction coords with
  | nil =>
      intro i hi
      simp [segsFrom]
  | cons p rest ih =>
      intro i hi
      obtain ⟨x, y⟩ := p
      rw [segsFrom_cons, if_neg hi]
      simp only [List.map_cons, List.sum_cons]
      rw [segString_count hc, hL, ih (i + 1) (by omega)]

theorem coordsToPath_counts (b : BBox) (x y : ℚ) (rest : List (ℚ × ℚ)) :
    (coordsToPath b ((x, y) :: rest)).data.count 'M' = 1 ∧
      (coordsToPath b ((x, y) :: rest)).data.count 'Z' = 1 := by
  have hZdata : ("Z" : String).data = ['Z'] := rfl
  constructor
  · rw [coordsToPath, joinSpace_count (by decide), List.map_append, List.sum_append,
      segsFrom_cons, if_pos rfl]
    simp only [List.map_cons, List.sum_cons, List.map_nil, List.sum_nil]
    rw [segString_count (by decide), segsFrom_pos_count (by decide) (by decide) rest 1
      (by omega)]
    decide
  · rw [coordsToPath, joinSpace_count (by decide), List.map_append, List.sum_append,
      segsFrom_cons, if_pos rfl]
    simp only [List.map_cons, List.sum_cons, List.map_nil, List.sum_nil]
    rw [segString_count (by decide), segsFrom_pos_count (by decide) (by decide) rest 1
      (by omega)]
    decide

theorem coordsToPath_head_M (b : BBox) (x y : ℚ) (rest : List (ℚ × ℚ)) :
    (coordsToPath b ((x, y) :: rest)).data.head? = some 'M' := by
  rw [coordsToPath, segsFrom_cons, if_pos rfl, List.cons_append]
  refine joinSpace_head (by simp) ?_
  rw [segString, data_append, data_append, data_append, data_append]
  rfl

theorem coordsToPath_last_Z (b : BBox) (coords : List (ℚ × ℚ)) :
    (coordsToPath b coords).data.getLast? = some 'Z' :=
  joinSpace_getLastZ _

theorem coordsToPath_closed (b : BBox) {ring : List (ℚ × ℚ)} (h : ring ≠ []) :
    closedSubpath (coordsToPath b ring) := by
  obtain ⟨p, rest, rfl⟩ := List.exists_cons_of_ne_nil h
  obtain ⟨x, y⟩ := p
  exact ⟨coordsToPath_head_M b x y rest, coordsToPath_last_Z b _,
    (coordsToPath_counts b x y rest).1, (coordsToPath_counts b x y rest).2⟩

/-! ## Theorems for the specification claims -/

/-- Claim C2: for every non-degenerate bounding box the coordinate
normalizer maps the corner (minx, miny) exactly to (0, height) and the
corner (maxx, maxy) exactly to (width, 0) — the vertical axis is
flipped. -/
theorem c2_corner_projection (b : BBox) (hx : b.minx < b.maxx) (hy : b.miny < b.maxy) :
    projectX b b.minx = 0 ∧ projectY b b.miny = svgHeight b ∧
      projectX b b.maxx = svgWidth ∧ projectY b b.maxy = 0 := by
  have hx' : b.maxx - b.minx ≠ 0 := by
    have h : (0 : ℚ) < b.maxx - b.minx := by linarith
    exact h.ne'
  have hy' : b.maxy - b.miny ≠ 0 := by
    have h : (0 : ℚ) < b.maxy - b.miny := by linarith
    exact h.ne'
  refine ⟨?_, ?_, ?_, ?_⟩
  · simp [projectX, sub_self]
  · simp [projectY, sub_self]
  · simp [projectX, div_self hx']
  · simp [projectY, div_self hy']

/-- Witness for C2 at the concrete box (0, 0, 2, 1). -/
theorem c2_corner_projection_witness :
    projectX ⟨0, 0, 2, 1⟩ 0 = 0 ∧ projectY ⟨0, 0, 2, 1⟩ 0 = svgHeight ⟨0, 0, 2, 1⟩ ∧
      projectX ⟨0, 0, 2, 1⟩ 2 = svgWidth ∧ projectY ⟨0, 0, 2, 1⟩ 1 = 0 :=
  c2_corner_projection ⟨0, 0, 2, 1⟩ (by decide) (by decide)

/-- Claim C3: every vertex inside a non-degenerate bounding box
projects into the canvas: 0 ≤ px ≤ width and 0 ≤ py ≤ height (exactly,
before the two-decimal rounding). -/
theorem c3_projection_in_canvas (b : BBox) (x y : ℚ)
    (hx : b.minx < b.maxx) (hy : b.miny < b.maxy)
    (hx1 : b.minx ≤ x) (hx2 : x ≤ b.maxx) (hy1 : b.miny ≤ y) (hy2 : y ≤ b.maxy) :
    0 ≤ projectX b x ∧ projectX b x ≤ svgWidth ∧
      0 ≤ projectY b y ∧ projectY b y ≤ svgHeight b := by
  have dx : (0 : ℚ) < b.maxx - b.minx := by linarith
  have dy : (0 : ℚ) < b.maxy - b.miny := by linarith
  have rx0 : 0 ≤ (x - b.minx) / (b.maxx - b.minx) := div_nonneg (by linarith) dx.le
  have rx1 : (x - b.minx) / (b.maxx - b.minx) ≤ 1 := (div_le_one dx).mpr (by linarith)
  have ry0 : 0 ≤ (y - b.miny) / (b.maxy - b.miny) := div_nonneg (by linarith) dy.le
  have ry1 : (y - b.miny) / (b.maxy - b.miny) ≤ 1 := (div_le_one dy).mpr (by linarith)
  have hH : 0 ≤ svgHeight b :=
    mul_nonneg (by norm_num [svgWidth]) (div_nonneg dy.le dx.le)
  refine ⟨?_, ?_, ?_, ?_⟩
  · unfold projectX svgWidth
    nlinarith
  · unfold projectX svgWidth
    nlinarith
  · unfold projectY
    nlinarith [mul_nonneg (by linarith : (0 : ℚ) ≤ 1 - (y - b.miny) / (b.maxy - b.miny)) hH]
  · unfold projectY
    nlinarith [mul_nonneg ry0 hH]

/-- Witness for C3 at the box (0, 0, 2, 1) and the inner vertex (1, 1/2). -/
theorem c3_projection_in_canvas_witness :
    0 ≤ projectX ⟨0, 0, 2, 1⟩ 1 ∧ projectX ⟨0, 0, 2, 1⟩ 1 ≤ svgWidth ∧
      0 ≤ projectY ⟨0, 0, 2, 1⟩ (1 / 2) ∧
      projectY ⟨0, 0, 2, 1⟩ (1 / 2) ≤ svgHeight ⟨0, 0, 2, 1⟩ :=
  c3_projection_in_canvas ⟨0, 0, 2, 1⟩ 1 (1 / 2) (by norm_num) (by norm_num)
    (by norm_num) (by norm_num) (by norm_num) (by norm_num)

/-- Claim C4: the spatial filter retains a candidate iff its type is
polygon or multi-polygon and its representative point lies within the
parent boundary; all other geometry types are discarded. -/
theorem c4_spatial_filter {α π : Type} (repPoint : α → π) (withinCity : π → Bool)
    (l : List (Candidate α)) (c : Candidate α) :
    c ∈ wardFilter repPoint withinCity l ↔
      c ∈ l ∧ (c.gtype = GType.polygon ∨ c.gtype = GType.multiPolygon) ∧
        withinCity (repPoint c.shape) = true := by
  unfold wardFilter spatialFilter typeFilter
  simp only [List.mem_filter, decide_eq_true_eq]
  tauto

/-- Claim C10: the representative-point filter is idempotent — the
second of the two successive applications in the source removes
nothing. -/
theorem c10_filter_idempotent {α π : Type} (repPoint : α → π) (withinCity : π → Bool)
    (l : List (Candidate α)) :
    spatialFilter repPoint withinCity (spatialFilter repPoint withinCity l) =
        spatialFilter repPoint withinCity l ∧
      wardFilter repPoint withinCity l =
        spatialFilter repPoint withinCity (typeFilter l) := by
  have h : ∀ l' : List (Candidate α),
      spatialFilter repPoint withinCity (spatialFilter repPoint withinCity l') =
        spatialFilter repPoint withinCity l' := by
    intro l'
    unfold spatialFilter
    rw [List.filter_filter]
    simp only [Bool.and_self]
  exact ⟨h l, h (typeFilter l)⟩

/-- Claim C6: when the land-mask stage fails (`none`) every row passes
through unmodified; when it succeeds (`some m`) every row's geometry is
replaced by its intersection with the mask, all other columns and the
row order being preserved. -/
theorem c6_land_mask_fallback {α μ : Type} (inter : α → μ → α)
    (rows : List (Candidate α)) :
    clipStage inter none rows = rows ∧
      (∀ m, (clipStage inter (some m) rows).map Candidate.shape =
        rows.map (fun r => inter r.shape m)) ∧
      (∀ m, (clipStage inter (some m) rows).map
          (fun r => (r.gtype, r.nameJp, r.nameEn, r.idxStr)) =
        rows.map (fun r => (r.gtype, r.nameJp, r.nameEn, r.idxStr))) := by
  refine ⟨rfl, ?_, ?_⟩ <;> intro m <;> simp [clipStage]

/-- A trivial concrete instantiation of the external geometry
operations, for evaluating the pipeline at concrete inputs. -/
def demoOps : GeoOps PGeom (ℚ × ℚ) Unit :=
  ⟨fun _ => (0, 0), fun _ => true, fun g _ => g, fun g => g, fun _ => (0, 0)⟩

/-- A concrete one-row candidate collection. -/
def demoRows : List (Candidate PGeom) :=
  [⟨GType.polygon, .poly ⟨[(0, 0), (1, 0), (1, 1)], []⟩, "a", none, "0"⟩]

/-- Claim C9: the core pipeline is deterministic — two runs on equal
inputs produce equal document element lists (hence byte-identical path
strings, identifiers and label coordinates). -/
theorem c9_deterministic {α π μ : Type} (ops ops' : GeoOps α π μ)
    (rows rows' : List (Candidate α)) (mask mask' : Option μ)
    (h1 : ops = ops') (h2 : rows = rows') (h3 : mask = mask') :
    corePipeline ops rows mask = corePipeline ops' rows' mask' := by
  subst h1
  subst h2
  subst h3
  rfl

/-- Witness for C9 at a concrete one-row input. -/
theorem c9_deterministic_witness :
    corePipeline demoOps demoRows none = corePipeline demoOps demoRows none :=
  c9_deterministic demoOps demoOps demoRows demoRows none none rfl rfl rfl

/-- A string beginning with the literal `"ward_"` is never empty. -/
theorem ward_fallback_ne_empty (i : String) : "ward_" ++ i ≠ "" := by
  intro he
  have h := congrArg String.data he
  rw [data_append] at h
  simp at h

/-- Claim C5: the sanitizer maps "Kōhoku Ward" to "Kohoku"; a name
whose sanitization is empty falls back to the positional identifier
`"ward_" ++ idx`; the output is always non-empty. -/
theorem c5_identifier_sanitizer :
    (∀ i, cleanId "Kōhoku Ward" i = "Kohoku") ∧
      (∀ name i, keepAlnum (removeWard (unidecodeStr name)) = "" →
        cleanId name i = "ward_" ++ i) ∧
      (∀ name i, cleanId name i ≠ "") := by
  have hk : keepAlnum (removeWard (unidecodeStr "Kōhoku Ward")) = "Kohoku" := by decide
  refine ⟨?_, ?_, ?_⟩
  · intro i
    unfold cleanId
    rw [hk]
    simp
  · intro name i h
    unfold cleanId
    rw [if_pos h]
  · intro name i
    unfold cleanId
    by_cases h : keepAlnum (removeWard (unidecodeStr name)) = ""
    · rw [if_pos h]
      exact ward_fallback_ne_empty i
    · rw [if_neg h]
      exact h

/-- Witness for C5 at the concrete names "Kōhoku Ward" and "###". -/
theorem c5_identifier_sanitizer_witness :
    cleanId "Kōhoku Ward" "0" = "Kohoku" ∧ cleanId "###" "7" = "ward_7" ∧
      cleanId "###" "7" ≠ "" :=
  ⟨c5_identifier_sanitizer.1 "0",
   (c5_identifier_sanitizer.2.1 "###" "7" (by decide)).trans (by decide),
   c5_identifier_sanitizer.2.2 "###" "7"⟩

/-- Claim C7: features with empty post-clip geometry contribute neither
a shape nor a label element; the surviving shape and label elements
each keep the feature iteration order, and in the document every shape
element precedes every label element. -/
theorem c7_document_assembler (b : BBox) (fs : List Feature) :
    (assembleLoop b fs).1 =
        (fs.filter (fun f => !f.geom.isEmptyG)).map (shapeElem b) ∧
      (assembleLoop b fs).2 =
        (fs.filter (fun f => !f.geom.isEmptyG)).map (labelElem b) ∧
      svgDocument b fs =
        svgHeader b ++ (fs.filter (fun f => !f.geom.isEmptyG)).map (shapeElem b) ++
          ["</g>"] ++
          ("<g id=\"labels\">" ::
            (fs.filter (fun f => !f.geom.isEmptyG)).map (labelElem b)) ++
          ["</g>", "</svg>"] := by
  have h : ∀ gs : List Feature, assembleLoop b gs =
      ((gs.filter (fun f => !f.geom.isEmptyG)).map (shapeElem b),
       (gs.filter (fun f => !f.geom.isEmptyG)).map (labelElem b)) := by
    intro gs
    induction gs with
    | nil => rfl
    | cons f rest ih =>
        by_cases hf : f.geom.isEmptyG
        · simp [assembleLoop, hf, ih]
        · simp [assembleLoop, hf, ih]
  refine ⟨?_, ?_, ?_⟩
  · rw [h fs]
  · rw [h fs]
  · unfold svgDocument
    rw [h fs]

/-- Claim C1: an empty geometry serializes to the empty string; a
polygon with one interior ring serializes to exactly two closed
subpaths, exterior first then hole, each a move command followed by
line commands and a close command; a multi-polygon with N parts
serializes to the N per-polygon path strings joined by single spaces,
in part order. -/
theorem c1_path_serializer (b : BBox) (ext hole : List (ℚ × ℚ)) (ps : List Polygon)
    (hext : ext ≠ []) (hhole : hole ≠ []) (hps : ps ≠ []) :
    (∀ g : PGeom, g.isEmptyG = true → polygonToSvgPath b g = "") ∧
      (polygonToSvgPath b (.poly ⟨ext, [hole]⟩) =
          coordsToPath b ext ++ " " ++ coordsToPath b hole ∧
        closedSubpath (coordsToPath b ext) ∧ closedSubpath (coordsToPath b hole) ∧
        (polygonToSvgPath b (.poly ⟨ext, [hole]⟩)).data.count 'M' = 2 ∧
        (polygonToSvgPath b (.poly ⟨ext, [hole]⟩)).data.count 'Z' = 2) ∧
      polygonToSvgPath b (.multi ps) =
        joinSpace (ps.map fun p => polygonToSvgPath b (.poly p)) := by
  obtain ⟨⟨xe, ye⟩, re, rfl⟩ := List.exists_cons_of_ne_nil hext
  obtain ⟨⟨xh, yh⟩, rh, rfl⟩ := List.exists_cons_of_ne_nil hhole
  have hpoly : polygonToSvgPath b (.poly ⟨(xe, ye) :: re, [(xh, yh) :: rh]⟩) =
      coordsToPath b ((xe, ye) :: re) ++ " " ++ coordsToPath b ((xh, yh) :: rh) := by
    show polyPath b _ = _
    unfold polyPath Polygon.polyEmpty
    simp only [List.isEmpty_cons, List.map_cons, List.map_nil, if_false,
      Bool.false_eq_true]
    rw [joinSpace_two]
    rfl
  refine ⟨?_, ⟨hpoly, coordsToPath_closed b (List.cons_ne_nil _ _),
    coordsToPath_closed b (List.cons_ne_nil _ _), ?_, ?_⟩, ?_⟩
  · intro g hg
    cases g with
    | poly p =>
        show polyPath b p = ""
        unfold polyPath
        simp only [PGeom.isEmptyG] at hg
        rw [if_pos hg]
    | multi qs =>
        show (if qs.isEmpty then "" else joinSpace (qs.map (polyPath b))) = ""
        simp only [PGeom.isEmptyG] at hg
        rw [if_pos hg]
  · rw [hpoly, data_append, data_append, List.count_append, List.count_append,
      (coordsToPath_counts b xe ye re).1, (coordsToPath_counts b xh yh rh).1]
    decide
  · rw [hpoly, data_append, data_append, List.count_append, List.count_append,
      (coordsToPath_counts b xe ye re).2, (coordsToPath_counts b xh yh rh).2]
    decide
  · have hpsE : ps.isEmpty = false := by
      cases ps with
      | nil => exact absurd rfl hps
      | cons p t => rfl
    show (if ps.isEmpty then "" else joinSpace (ps.map (polyPath b))) = _
    rw [hpsE]
    rfl

/-- Witness for C1 at a concrete polygon with one hole and a concrete
one-part multi-polygon over the box (0, 0, 2, 1). -/
theorem c1_path_serializer_witness :
    (polygonToSvgPath ⟨0, 0, 2, 1⟩
          (.poly ⟨[(0, 0), (2, 0), (2, 1)], [[(1, 0)]]⟩) =
        coordsToPath ⟨0, 0, 2, 1⟩ [(0, 0), (2, 0), (2, 1)] ++ " " ++
          coordsToPath ⟨0, 0, 2, 1⟩ [(1, 0)] ∧
      closedSubpath (coordsToPath ⟨0, 0, 2, 1⟩ [(0, 0), (2, 0), (2, 1)]) ∧
      closedSubpath (coordsToPath ⟨0, 0, 2, 1⟩ [(1, 0)]) ∧
      (polygonToSvgPath ⟨0, 0, 2, 1⟩
          (.poly ⟨[(0, 0), (2, 0), (2, 1)], [[(1, 0)]]⟩)).data.count 'M' = 2 ∧
      (polygonToSvgPath ⟨0, 0, 2, 1⟩
          (.poly ⟨[(0, 0), (2, 0), (2, 1)], [[(1, 0)]]⟩)).data.count 'Z' = 2) ∧
    polygonToSvgPath ⟨0, 0, 2, 1⟩ (.multi [⟨[(0, 0)], []⟩]) =
      joinSpace ([⟨[(0, 0)], []⟩].map fun p =>
        polygonToSvgPath ⟨0, 0, 2, 1⟩ (.poly p)) :=
  ⟨(c1_path_serializer ⟨0, 0, 2, 1⟩ [(0, 0), (2, 0), (2, 1)] [(1, 0)] [⟨[(0, 0)], []⟩]
      (List.cons_ne_nil _ _) (List.cons_ne_nil _ _) (List.cons_ne_nil _ _)).2.1,
   (c1_path_serializer ⟨0, 0, 2, 1⟩ [(0, 0), (2, 0), (2, 1)] [(1, 0)] [⟨[(0, 0)], []⟩]
      (List.cons_ne_nil _ _) (List.cons_ne_nil _ _) (List.cons_ne_nil _ _)).2.2⟩

/-- A one-feature collection whose bounding box has zero width: every
vertex shares x = 5. -/
def degRows : List Feature :=
  [⟨.poly ⟨[(5, 0), (5, 3)], []⟩, "deg", none, "0", (5, 1)⟩]

/-- Claim C8 is violated by the code: at a collection whose bounding
box has zero width, `generate_svg` performs no degeneracy check — the
assembler still emits one shape element and a complete document, so
the degenerate case is handled silently by producing output rather
than failing.  (In the source the zero-width division produces an
IEEE infinity under a numpy warning, not an exception; over ℚ the
division yields 0 — either way a document is produced.) -/
theorem c8_degenerate_not_fatal :
    (totalBounds degRows).maxx - (totalBounds degRows).minx = 0 ∧
      (svgDocument (totalBounds degRows) degRows).getLast? = some "</svg>" ∧
      (assembleLoop (totalBounds degRows) degRows).1.length = 1 := by
  have hb : totalBounds degRows = ⟨5, 0, 5, 3⟩ := rfl
  refine ⟨?_, rfl, by decide⟩
  rw [hb]
  norm_num

end OsmMuniSvg
